import Mathlib

/-
  Verification of the ThumbSafi client-side editing engine.

  The definitions below are a shallow embedding of the React application
  state and its handlers (App.tsx together with EditorPreview.tsx,
  ControlPanel.tsx and RetouchPanel.tsx).  JavaScript numbers are modelled
  over the rationals, pixel buffers as lists of RGBA quadruples, and the
  asynchronous remote calls as explicit outcome parameters of type Except.
-/

namespace ThumbSafi

/-- One positioned, styled text overlay (TextElement in App.tsx). -/
structure TextElement where
  id : String
  content : String
  color : String
  fontSize : ℚ
  fontFamily : String
  top : ℚ
  left : ℚ
  outlineColor : String
  outlineWidth : ℚ
  deriving DecidableEq

/-- The three mutually exclusive editor modes (EditorMode in App.tsx). -/
inductive EditorMode where
  | text
  | retouch
  | crop
  deriving DecidableEq

/-- Geometry of the crop extraction performed by handleApplyCrop: the
output canvas dimensions and the source rectangle read from the image in
natural pixel space. -/
structure CropResult where
  canvasWidth : ℚ
  canvasHeight : ℚ
  srcX : ℚ
  srcY : ℚ
  srcW : ℚ
  srcH : ℚ
  deriving DecidableEq

/-- An encoded image handle (a data URL in the code).  Locally produced
images record their provenance; remote results are opaque. -/
inductive EncodedImage where
  | url (s : String)
  | cropped (r : CropResult)
  | composited (bg subject : EncodedImage) (sx sy sw sh : ℚ)
  | masked (base mask : EncodedImage)
  deriving DecidableEq

/-- The completed pixel-space crop rectangle (PixelCrop from
react-image-crop), in display coordinates of the rendered image. -/
structure PixelCrop where
  x : ℚ
  y : ℚ
  width : ℚ
  height : ℚ
  deriving DecidableEq

/-- The live percent-unit crop rectangle (Crop from react-image-crop). -/
structure PercentCrop where
  x : ℚ
  y : ℚ
  width : ℚ
  height : ℚ
  deriving DecidableEq

/-- The App component state: one field per useState hook of App.tsx. -/
structure AppState where
  baseImage : Option EncodedImage
  textElements : List TextElement
  selectedTextId : Option String
  isLoading : Bool
  loadingMessage : String
  error : Option String
  isDesignerOpen : Bool
  isUploadModalOpen : Bool
  editorMode : EditorMode
  retouchMask : Option EncodedImage
  brushSize : ℚ
  crop : Option PercentCrop
  completedCrop : Option PixelCrop
  aspect : Option ℚ
  deriving DecidableEq

/-- The initial state of the App component (the useState initial values). -/
def initialState : AppState :=
  { baseImage := none
    textElements := []
    selectedTextId := none
    isLoading := false
    loadingMessage := "Generating..."
    error := none
    isDesignerOpen := false
    isUploadModalOpen := false
    editorMode := EditorMode.text
    retouchMask := none
    brushSize := 40
    crop := none
    completedCrop := none
    aspect := none }

/-- The enumerated font set (fonts in ControlPanel). -/
def fonts : List String := ["Anton", "Bebas Neue", "Archivo Black", "Inter"]

/-- The fixed-default layer inserted by addText; the id models the
text-Date.now() string computed at insertion time. -/
def defaultText (id : String) : TextElement :=
  { id := id
    content := "Your Text Here"
    color := "#FFFFFF"
    fontSize := 80
    fontFamily := "Anton"
    top := 40
    left := 20
    outlineColor := "#000000"
    outlineWidth := 5 }

/-- addText of App.tsx: append the default layer and select it. -/
def addText (id : String) (s : AppState) : AppState :=
  { s with textElements := s.textElements ++ [defaultText id]
           selectedTextId := some id }

/-- Partial update record (Partial TextElement in App.tsx): fields left
none are not part of the update. -/
structure TextUpdate where
  id : Option String := none
  content : Option String := none
  color : Option String := none
  fontSize : Option ℚ := none
  fontFamily : Option String := none
  top : Option ℚ := none
  left : Option ℚ := none
  outlineColor : Option String := none
  outlineWidth : Option ℚ := none
  deriving DecidableEq

/-- Spread-merge of an update into a layer, as in the object literal with
two spreads inside updateText. -/
def mergeText (t : TextElement) (u : TextUpdate) : TextElement :=
  { id := u.id.getD t.id
    content := u.content.getD t.content
    color := u.color.getD t.color
    fontSize := u.fontSize.getD t.fontSize
    fontFamily := u.fontFamily.getD t.fontFamily
    top := u.top.getD t.top
    left := u.left.getD t.left
    outlineColor := u.outlineColor.getD t.outlineColor
    outlineWidth := u.outlineWidth.getD t.outlineWidth }

/-- updateText of App.tsx: map over the layer list, merging the update
into the layer whose id matches. -/
def updateText (id : String) (u : TextUpdate) (s : AppState) : AppState :=
  { s with textElements :=
      s.textElements.map (fun t => if t.id = id then mergeText t u else t) }

/-- deleteText of App.tsx: filter the layer out and null the selection
when the deleted id was selected. -/
def deleteText (id : String) (s : AppState) : AppState :=
  { s with textElements := s.textElements.filter (fun t => t.id ≠ id)
           selectedTextId :=
             if s.selectedTextId = some id then none else s.selectedTextId }

/-- The ids of the current layer sequence. -/
def textIds (s : AppState) : List String := s.textElements.map (fun t => t.id)

/-- The document invariant: a non-null selection resolves to a layer. -/
def SelectionInv (s : AppState) : Prop :=
  ∀ id, s.selectedTextId = some id → id ∈ textIds s

/-- One step of the add/delete operation language of claim C1. -/
inductive TextOp where
  | add (id : String)
  | delete (id : String)
  deriving DecidableEq

def applyTextOp : TextOp → AppState → AppState
  | TextOp.add id, s => addText id s
  | TextOp.delete id, s => deleteText id s

def applyTextOps (ops : List TextOp) (s : AppState) : AppState :=
  ops.foldl (fun s op => applyTextOp op s) s

lemma addText_inv (id : String) (s : AppState) : SelectionInv (addText id s) := by
  intro j hj
  simp only [addText] at hj
  cases hj
  simp [textIds, addText, defaultText]

lemma deleteText_inv (id : String) (s : AppState) (h : SelectionInv s) :
    SelectionInv (deleteText id s) := by
  intro j hj
  simp only [deleteText] at hj
  by_cases hsel : s.selectedTextId = some id
  · simp [hsel] at hj
  · rw [if_neg hsel] at hj
    have hmem := h j hj
    have hne : j ≠ id := by
      intro e
      exact hsel (e ▸ hj)
    simp only [textIds, List.mem_map] at hmem ⊢
    obtain ⟨t, ht, rfl⟩ := hmem
    exact ⟨t, List.mem_filter.2 ⟨ht, by simpa using hne⟩, rfl⟩

lemma applyTextOps_inv (ops : List TextOp) (s : AppState) (h : SelectionInv s) :
    SelectionInv (applyTextOps ops s) := by
  induction ops generalizing s with
  | nil => exact h
  | cons op ops ih =>
    cases op with
    | add id => exact ih (addText id s) (addText_inv id s)
    | delete id => exact ih (deleteText id s) (deleteText_inv id s h)

/-- C1: along any sequence of addText and deleteText operations the
selection stays null or a member of the layer sequence, and deleting the
selected layer nulls the selection in the same operation. -/
theorem selection_invariant_preserved (ops : List TextOp) (s : AppState)
    (h : SelectionInv s) :
    SelectionInv (applyTextOps ops s) ∧
    (∀ id, s.selectedTextId = some id → (deleteText id s).selectedTextId = none) := by
  refine ⟨applyTextOps_inv ops s h, ?_⟩
  intro id hid
  simp [deleteText, hid]

/-- A concrete state with one layer and that layer selected. -/
def stateSel : AppState :=
  { initialState with
      textElements := [defaultText "a"]
      selectedTextId := some "a" }

lemma stateSel_inv : SelectionInv stateSel := by
  intro j hj
  have hj2 : some "a" = some j := hj
  cases hj2
  simp [textIds, stateSel, initialState, defaultText]

theorem selection_invariant_preserved_witness :
    SelectionInv (applyTextOps [TextOp.add "b", TextOp.delete "a"] stateSel) ∧
    (deleteText "a" stateSel).selectedTextId = none :=
  ⟨(selection_invariant_preserved [TextOp.add "b", TextOp.delete "a"] stateSel
      stateSel_inv).1,
   (selection_invariant_preserved [] stateSel stateSel_inv).2 "a" rfl⟩

/-- C8: addText appends a layer with exactly the fixed defaults, whose
font is the first of the enumerated font set, and selects the new id. -/
theorem addText_defaults (s : AppState) (id : String) :
    (addText id s).textElements = s.textElements ++ [defaultText id] ∧
    (defaultText id).content = "Your Text Here" ∧
    (defaultText id).color = "#FFFFFF" ∧
    (defaultText id).fontSize = 80 ∧
    (defaultText id).fontFamily = "Anton" ∧
    fonts.head? = some (defaultText id).fontFamily ∧
    (defaultText id).top = 40 ∧
    (defaultText id).left = 20 ∧
    (defaultText id).outlineColor = "#000000" ∧
    (defaultText id).outlineWidth = 5 ∧
    (addText id s).selectedTextId = some id :=
  ⟨rfl, rfl, rfl, rfl, rfl, rfl, rfl, rfl, rfl, rfl, rfl⟩

/-- C10: updateText keeps the length and order of the layer list, leaves
every layer with a different id unchanged in place, and is the identity on
the list when no layer carries the given id. -/
theorem updateText_frame (s : AppState) (id : String) (u : TextUpdate) :
    (updateText id u s).textElements.length = s.textElements.length ∧
    (∀ (i : ℕ) (t : TextElement), s.textElements[i]? = some t → t.id ≠ id →
      (updateText id u s).textElements[i]? = some t) ∧
    ((∀ t ∈ s.textElements, t.id ≠ id) →
      (updateText id u s).textElements = s.textElements) := by
  refine ⟨by simp [updateText], ?_, ?_⟩
  · intro i t ht hne
    simp only [updateText]
    rw [List.getElem?_map, ht]
    simp [hne]
  · intro hall
    simp only [updateText]
    calc s.textElements.map (fun t => if t.id = id then mergeText t u else t)
        = s.textElements.map (fun t => t) := by
          apply List.map_congr_left
          intro t ht
          simp [hall t ht]
      _ = s.textElements := List.map_id _

/-- A two-layer state used to instantiate frame theorems. -/
def stateAB : AppState :=
  { initialState with
      textElements := [defaultText "a", defaultText "b"]
      selectedTextId := some "a" }

theorem updateText_frame_witness :
    (updateText "zz" {} stateAB).textElements.length =
      stateAB.textElements.length ∧
    (updateText "zz" {} stateAB).textElements[0]? = some (defaultText "a") ∧
    (updateText "zz" {} stateAB).textElements = stateAB.textElements :=
  ⟨(updateText_frame stateAB "zz" {}).1,
   (updateText_frame stateAB "zz" {}).2.1 0 (defaultText "a") rfl (by decide),
   (updateText_frame stateAB "zz" {}).2.2 (by decide)⟩

/-- An RGBA pixel of a canvas buffer, channel values in 0..255. -/
structure Pixel where
  r : ℕ
  g : ℕ
  b : ℕ
  a : ℕ
  deriving DecidableEq

/-- A canvas pixel buffer: dimensions plus the row-major pixel data (the
ImageData view used inside handleMouseUp). -/
structure Overlay where
  width : ℕ
  height : ℕ
  data : List Pixel
  deriving DecidableEq

def whitePixel : Pixel := ⟨255, 255, 255, 255⟩

def blackPixel : Pixel := ⟨0, 0, 0, 255⟩

/-- Per-pixel rule of the handleMouseUp loop: any pixel whose alpha is
nonzero becomes opaque pure white, every other pixel opaque pure black. -/
def binarize (p : Pixel) : Pixel := if 0 < p.a then whitePixel else blackPixel

/-- The black/white mask canvas built in handleMouseUp: same dimensions as
the painted overlay, each pixel binarized. -/
def deriveBWMask (o : Overlay) : Overlay :=
  { o with data := o.data.map binarize }

/-- The hasDrawing flag computed in the same loop: whether any overlay
pixel has nonzero alpha (read before the pixel is overwritten). -/
def hasDrawing (o : Overlay) : Bool := o.data.any (fun p => 0 < p.a)

/-- The value handed to onMaskChange at stroke release: the encoded
black/white mask when something was painted, null otherwise. -/
def strokeReleaseMask (o : Overlay) : Option Overlay :=
  if hasDrawing o then some (deriveBWMask o) else none

/-- C3: the mask derived at stroke release has the dimensions of the
overlay, sends every pixel of nonzero alpha to opaque pure white and every
other pixel to opaque pure black, and contains no partially opaque pixel. -/
theorem derived_mask_binary (o : Overlay) :
    (deriveBWMask o).width = o.width ∧
    (deriveBWMask o).height = o.height ∧
    (deriveBWMask o).data.length = o.data.length ∧
    (∀ (i : ℕ) (p : Pixel), o.data[i]? = some p →
      (deriveBWMask o).data[i]? =
        some (if 0 < p.a then whitePixel else blackPixel)) ∧
    (∀ q ∈ (deriveBWMask o).data, q.a = 255 ∧ (q = whitePixel ∨ q = blackPixel)) := by
  refine ⟨rfl, rfl, by simp [deriveBWMask], ?_, ?_⟩
  · intro i p hp
    simp only [deriveBWMask]
    rw [List.getElem?_map, hp]
    rfl
  · intro q hq
    simp only [deriveBWMask, List.mem_map] at hq
    obtain ⟨p, -, rfl⟩ := hq
    by_cases h : 0 < p.a
    · simp [binarize, h, whitePixel]
    · simp [binarize, h, blackPixel]

/-- A small overlay with one painted and one untouched pixel. -/
def paintedOverlay : Overlay :=
  { width := 2, height := 1, data := [⟨255, 255, 255, 178⟩, ⟨0, 0, 0, 0⟩] }

theorem derived_mask_binary_witness :
    (deriveBWMask paintedOverlay).width = paintedOverlay.width ∧
    (deriveBWMask paintedOverlay).data[0]? = some whitePixel ∧
    (deriveBWMask paintedOverlay).data[1]? = some blackPixel :=
  ⟨(derived_mask_binary paintedOverlay).1,
   ((derived_mask_binary paintedOverlay).2.2.2.1 0 ⟨255, 255, 255, 178⟩
       rfl).trans (by decide),
   ((derived_mask_binary paintedOverlay).2.2.2.1 1 ⟨0, 0, 0, 0⟩
       rfl).trans (by decide)⟩

/-- Outcome environment for the asynchronous steps of handleApplyRetouch:
whether the load events of the base image and the mask fire, whether a 2d
context is available, and the result of the remote editImage call as a
function of the transparent image and the prompt. -/
structure RetouchOutcome where
  imageLoad : Bool
  maskLoad : Bool
  ctxOk : Bool
  editResult : EncodedImage → String → Except String EncodedImage

/-- handleApplyRetouch of App.tsx.  The early return fires when either the
base image or the mask is absent.  When a load event of either image fails
to fire, the Promise.all join never settles (the onerror handlers throw
inside the event handler, which cannot reject the promise), so the visible
state stays at the synchronous busy stage.  Otherwise a missing context or
a failed remote edit is caught and surfaced, and on success the edited
image replaces the background and the mask is cleared. -/
def handleApplyRetouch (env : RetouchOutcome) (prompt : String)
    (s : AppState) : AppState :=
  match s.baseImage, s.retouchMask with
  | some base, some mask =>
    let busy := { s with isLoading := true
                         loadingMessage := "Applying AI retouch..."
                         error := none }
    if ¬(env.imageLoad ∧ env.maskLoad) then
      busy
    else if ¬env.ctxOk then
      { busy with error := some "Could not get canvas context"
                  isLoading := false
                  loadingMessage := "Generating..." }
    else
      match env.editResult (EncodedImage.masked base mask) prompt with
      | Except.error msg =>
        { busy with error := some msg
                    isLoading := false
                    loadingMessage := "Generating..." }
      | Except.ok edited =>
        { busy with baseImage := some edited
                    retouchMask := none
                    isLoading := false
                    loadingMessage := "Generating..." }
  | _, _ => s

/-- Disabled condition of the Apply Retouch button in RetouchPanel. -/
def applyRetouchDisabled (isLoading : Bool) (prompt : String)
    (hasMask : Bool) : Bool :=
  isLoading || prompt.trim.isEmpty || !hasMask

/-- C4: an overlay with no painted pixel reports no drawing and a null
mask, handleApplyRetouch leaves the state untouched when no mask is
present, and the Apply Retouch control is disabled without a mask. -/
theorem empty_mask_rejected (o : Overlay) (h : ∀ p ∈ o.data, p.a = 0)
    (env : RetouchOutcome) (prompt : String) (s : AppState)
    (hm : s.retouchMask = none) :
    hasDrawing o = false ∧
    strokeReleaseMask o = none ∧
    handleApplyRetouch env prompt s = s ∧
    applyRetouchDisabled s.isLoading prompt false = true := by
  have hd : hasDrawing o = false := by
    simp only [hasDrawing, List.any_eq_false]
    intro p hp
    simp [h p hp]
  refine ⟨hd, by simp [strokeReleaseMask, hd], ?_, ?_⟩
  · cases hb : s.baseImage <;> simp [handleApplyRetouch, hb, hm]
  · simp [applyRetouchDisabled]

/-- An overlay whose two pixels are both fully transparent. -/
def untouchedOverlay : Overlay :=
  { width := 2, height := 1, data := [⟨0, 0, 0, 0⟩, ⟨0, 0, 0, 0⟩] }

/-- A retouch environment in which every asynchronous step would succeed. -/
def happyRetouchEnv : RetouchOutcome :=
  { imageLoad := true, maskLoad := true, ctxOk := true
    editResult := fun _ _ => Except.ok (EncodedImage.url "edited") }

theorem empty_mask_rejected_witness :
    hasDrawing untouchedOverlay = false ∧
    strokeReleaseMask untouchedOverlay = none ∧
    handleApplyRetouch happyRetouchEnv "remove the lamp" initialState =
      initialState ∧
    applyRetouchDisabled initialState.isLoading "remove the lamp" false = true :=
  empty_mask_rejected untouchedOverlay (by decide) happyRetouchEnv
    "remove the lamp" initialState rfl

/-- A state holding a background image and a painted mask, ready for a
retouch submission. -/
def retouchReadyState : AppState :=
  { initialState with
      baseImage := some (EncodedImage.url "base")
      retouchMask := some (EncodedImage.url "mask") }

/-- An environment in which the base image fails to decode: its error
event fires instead of load. -/
def imageLoadFailEnv : RetouchOutcome :=
  { imageLoad := false, maskLoad := true, ctxOk := true
    editResult := fun _ _ => Except.ok (EncodedImage.url "edited") }

/-- C5: evaluating handleApplyRetouch at a failing input.  When the base
image fails to load, the document is indeed left untouched, but no error
message is surfaced and the busy flag stays set, because the onerror
handler throws inside the event handler and the join promise never
settles; the claim requires the failure to surface as an error message. -/
theorem retouch_load_failure_silent :
    (handleApplyRetouch imageLoadFailEnv "remove" retouchReadyState).baseImage =
      retouchReadyState.baseImage ∧
    (handleApplyRetouch imageLoadFailEnv "remove" retouchReadyState).textElements =
      retouchReadyState.textElements ∧
    (handleApplyRetouch imageLoadFailEnv "remove" retouchReadyState).error =
      none ∧
    (handleApplyRetouch imageLoadFailEnv "remove" retouchReadyState).isLoading =
      true :=
  ⟨rfl, rfl, rfl, rfl⟩

/-- The img element referenced by imgRef: decoded (natural) dimensions and
rendered (display) dimensions. -/
structure ImageEl where
  naturalWidth : ℚ
  naturalHeight : ℚ
  width : ℚ
  height : ℚ
  deriving DecidableEq

/-- The canvas geometry computed by handleApplyCrop: output canvas sized
to the completed crop rectangle, source rectangle scaled into natural
pixel space. -/
def cropResultOf (image : ImageEl) (c : PixelCrop) : CropResult :=
  let scaleX := image.naturalWidth / image.width
  let scaleY := image.naturalHeight / image.height
  { canvasWidth := c.width
    canvasHeight := c.height
    srcX := c.x * scaleX
    srcY := c.y * scaleY
    srcW := c.width * scaleX
    srcH := c.height * scaleY }

/-- handleApplyCrop of App.tsx: early return when there is no completed
crop or no image element, or when no 2d context is available; otherwise
the background is replaced by the extracted crop, the mode returns to
text and both crop rectangles are cleared. -/
def handleApplyCrop (imgRef : Option ImageEl) (ctxOk : Bool)
    (s : AppState) : AppState :=
  match s.completedCrop, imgRef with
  | some c, some image =>
    if ctxOk then
      { s with baseImage := some (EncodedImage.cropped (cropResultOf image c))
               editorMode := EditorMode.text
               crop := none
               completedCrop := none }
    else s
  | _, _ => s

/-- An image rendered at half its natural resolution. -/
def halfScaleImage : ImageEl :=
  { naturalWidth := 200, naturalHeight := 100, width := 100, height := 50 }

/-- The crop rectangle covering the whole displayed halfScaleImage. -/
def fullCoverCrop : PixelCrop := { x := 0, y := 0, width := 100, height := 50 }

/-- A state about to apply fullCoverCrop. -/
def cropReadyState : AppState :=
  { initialState with
      baseImage := some (EncodedImage.url "base")
      editorMode := EditorMode.crop
      completedCrop := some fullCoverCrop }

/-- C2 counterexample: the completed crop rectangle maps exactly onto the
full natural-space image, yet the output image produced by handleApplyCrop
has the display dimensions 100 by 50, not the natural dimensions 200 by
100 of the original. -/
theorem crop_full_cover_dims_cex :
    ((cropResultOf halfScaleImage fullCoverCrop).srcX = 0 ∧
     (cropResultOf halfScaleImage fullCoverCrop).srcY = 0 ∧
     (cropResultOf halfScaleImage fullCoverCrop).srcW =
       halfScaleImage.naturalWidth ∧
     (cropResultOf halfScaleImage fullCoverCrop).srcH =
       halfScaleImage.naturalHeight) ∧
    (handleApplyCrop (some halfScaleImage) true cropReadyState).baseImage =
      some (EncodedImage.cropped (cropResultOf halfScaleImage fullCoverCrop)) ∧
    ¬((cropResultOf halfScaleImage fullCoverCrop).canvasWidth =
        halfScaleImage.naturalWidth ∧
      (cropResultOf halfScaleImage fullCoverCrop).canvasHeight =
        halfScaleImage.naturalHeight) := by
  refine ⟨by norm_num [cropResultOf, halfScaleImage, fullCoverCrop], ?_,
    by norm_num [cropResultOf, halfScaleImage, fullCoverCrop]⟩
  rfl

/-- C2 as amended: the output image of handleApplyCrop always carries the
display-space dimensions of the completed crop rectangle; when the image
is displayed at its natural size, a rectangle covering the full
natural-space image therefore yields output dimensions identical to the
natural dimensions. -/
theorem crop_output_dims (image : ImageEl) (c : PixelCrop) (s : AppState)
    (hc : s.completedCrop = some c) :
    (handleApplyCrop (some image) true s).baseImage =
      some (EncodedImage.cropped (cropResultOf image c)) ∧
    (cropResultOf image c).canvasWidth = c.width ∧
    (cropResultOf image c).canvasHeight = c.height ∧
    (image.width = image.naturalWidth → image.height = image.naturalHeight →
     0 < image.width → 0 < image.height →
     (cropResultOf image c).srcW = image.naturalWidth →
     (cropResultOf image c).srcH = image.naturalHeight →
     (cropResultOf image c).canvasWidth = image.naturalWidth ∧
     (cropResultOf image c).canvasHeight = image.naturalHeight) := by
  refine ⟨by simp [handleApplyCrop, hc], rfl, rfl, ?_⟩
  intro hw hh hw0 hh0 hsw hsh
  constructor
  · have h1 : image.naturalWidth / image.width = 1 := by
      rw [← hw]
      exact div_self (ne_of_gt hw0)
    simp only [cropResultOf, h1, mul_one] at hsw
    exact hsw
  · have h1 : image.naturalHeight / image.height = 1 := by
      rw [← hh]
      exact div_self (ne_of_gt hh0)
    simp only [cropResultOf, h1, mul_one] at hsh
    exact hsh

/-- An image displayed at exactly its natural 320 by 180 resolution. -/
def natScaleImage : ImageEl :=
  { naturalWidth := 320, naturalHeight := 180, width := 320, height := 180 }

/-- The crop rectangle covering the whole natScaleImage. -/
def natCoverCrop : PixelCrop := { x := 0, y := 0, width := 320, height := 180 }

/-- A state about to apply natCoverCrop. -/
def natCropState : AppState :=
  { initialState with
      baseImage := some (EncodedImage.url "base")
      editorMode := EditorMode.crop
      completedCrop := some natCoverCrop }

theorem crop_output_dims_witness :
    (handleApplyCrop (some natScaleImage) true natCropState).baseImage =
      some (EncodedImage.cropped (cropResultOf natScaleImage natCoverCrop)) ∧
    (cropResultOf natScaleImage natCoverCrop).canvasWidth =
      natScaleImage.naturalWidth ∧
    (cropResultOf natScaleImage natCoverCrop).canvasHeight =
      natScaleImage.naturalHeight :=
  ⟨(crop_output_dims natScaleImage natCoverCrop natCropState rfl).1,
   (crop_output_dims natScaleImage natCoverCrop natCropState rfl).2.2.2
     rfl rfl (by norm_num [natScaleImage]) (by norm_num [natScaleImage])
     (by norm_num [cropResultOf, natScaleImage, natCoverCrop])
     (by norm_num [cropResultOf, natScaleImage, natCoverCrop])⟩

/-- C9: after a successful crop application the mode is text, both crop
rectangles are cleared, and the background is the extracted crop. -/
theorem crop_apply_resets (image : ImageEl) (c : PixelCrop) (s : AppState)
    (hc : s.completedCrop = some c) :
    (handleApplyCrop (some image) true s).editorMode = EditorMode.text ∧
    (handleApplyCrop (some image) true s).crop = none ∧
    (handleApplyCrop (some image) true s).completedCrop = none ∧
    (handleApplyCrop (some image) true s).baseImage =
      some (EncodedImage.cropped (cropResultOf image c)) := by
  simp [handleApplyCrop, hc]

theorem crop_apply_resets_witness :
    (handleApplyCrop (some halfScaleImage) true cropReadyState).editorMode =
      EditorMode.text ∧
    (handleApplyCrop (some halfScaleImage) true cropReadyState).crop = none ∧
    (handleApplyCrop (some halfScaleImage) true cropReadyState).completedCrop =
      none ∧
    (handleApplyCrop (some halfScaleImage) true cropReadyState).baseImage =
      some (EncodedImage.cropped (cropResultOf halfScaleImage fullCoverCrop)) :=
  crop_apply_resets halfScaleImage fullCoverCrop cropReadyState rfl

/-- Output width of the composite and of the final export. -/
def thumbnailWidth : ℚ := 1280

/-- Output height of the composite and of the final export. -/
def thumbnailHeight : ℚ := 720

/-- Height bound for the composited subject (720 times 0.9). -/
def maxSubHeight : ℚ := 720 * (9 / 10)

/-- Width bound for the composited subject (1280 over 3). -/
def maxSubWidth : ℚ := 1280 / 3

/-- Destination rectangle of a drawImage call. -/
structure Placement where
  sx : ℚ
  sy : ℚ
  sw : ℚ
  sh : ℚ
  deriving DecidableEq

/-- Subject layout of handleDesignThumbnail: uniform scale bounded by the
right-third box, right-aligned with a five percent margin, vertically
centered. -/
def subjectPlacement (w h : ℚ) : Placement :=
  let scale := min (maxSubWidth / w) (maxSubHeight / h)
  let sw := w * scale
  let sh := h * scale
  { sx := 1280 - sw - 1280 * (5 / 100)
    sy := (720 - sh) / 2
    sw := sw
    sh := sh }

/-- The composited image built in handleDesignThumbnail: background drawn
over the full 1280 by 720 canvas, subject drawn at its placement. -/
def compositeSubject (bg subject : EncodedImage) (w h : ℚ) : EncodedImage :=
  let p := subjectPlacement w h
  EncodedImage.composited bg subject p.sx p.sy p.sw p.sh

/-- C6: for a subject of positive dimensions the compositing scale is the
minimum of the two box ratios, the scaled subject fits the right-third box
with its aspect ratio preserved, the right margin is five percent of the
output width, and the top and bottom gaps agree. -/
theorem subject_placement_spec (w h : ℚ) (hw : 0 < w) (hh : 0 < h) :
    (subjectPlacement w h).sw =
      w * min (maxSubWidth / w) (maxSubHeight / h) ∧
    (subjectPlacement w h).sh =
      h * min (maxSubWidth / w) (maxSubHeight / h) ∧
    (subjectPlacement w h).sw ≤ 1280 / 3 ∧
    (subjectPlacement w h).sh ≤ (9 / 10) * 720 ∧
    (subjectPlacement w h).sw * h = (subjectPlacement w h).sh * w ∧
    1280 - ((subjectPlacement w h).sx + (subjectPlacement w h).sw) =
      1280 * (5 / 100) ∧
    (subjectPlacement w h).sy =
      720 - ((subjectPlacement w h).sy + (subjectPlacement w h).sh) := by
  have hwidth : w * (maxSubWidth / w) = maxSubWidth := by
    field_simp
  have hheight : h * (maxSubHeight / h) = maxSubHeight := by
    field_simp
  refine ⟨rfl, rfl, ?_, ?_, ?_, ?_, ?_⟩
  · calc w * min (maxSubWidth / w) (maxSubHeight / h)
        ≤ w * (maxSubWidth / w) :=
          mul_le_mul_of_nonneg_left (min_le_left _ _) hw.le
      _ = maxSubWidth := hwidth
      _ = 1280 / 3 := rfl
  · calc h * min (maxSubWidth / w) (maxSubHeight / h)
        ≤ h * (maxSubHeight / h) :=
          mul_le_mul_of_nonneg_left (min_le_right _ _) hh.le
      _ = maxSubHeight := hheight
      _ = (9 / 10) * 720 := by norm_num [maxSubHeight]
  · simp only [subjectPlacement]
    ring
  · simp only [subjectPlacement]
    ring
  · simp only [subjectPlacement]
    ring

theorem subject_placement_spec_witness :
    (subjectPlacement 1000 500).sw =
      1000 * min (maxSubWidth / 1000) (maxSubHeight / 500) ∧
    (subjectPlacement 1000 500).sh =
      500 * min (maxSubWidth / 1000) (maxSubHeight / 500) ∧
    (subjectPlacement 1000 500).sw ≤ 1280 / 3 ∧
    (subjectPlacement 1000 500).sh ≤ (9 / 10) * 720 ∧
    (subjectPlacement 1000 500).sw * 500 = (subjectPlacement 1000 500).sh * 1000 ∧
    1280 - ((subjectPlacement 1000 500).sx + (subjectPlacement 1000 500).sw) =
      1280 * (5 / 100) ∧
    (subjectPlacement 1000 500).sy =
      720 - ((subjectPlacement 1000 500).sy + (subjectPlacement 1000 500).sh) :=
  subject_placement_spec 1000 500 (by norm_num) (by norm_num)

/-- One drawing command issued against the export canvas context. -/
inductive DrawOp where
  | drawImage (img : EncodedImage) (x y w h : ℚ)
  | strokeTextOp (style : String) (lineWidth : ℚ) (content : String) (x y : ℚ)
  | fillTextOp (style : String) (content : String) (x y : ℚ)
  deriving DecidableEq

/-- The drawing commands handleDownload issues for one text layer: a
stroke pass at double the outline width when the outline width is
positive, then the fill pass. -/
def renderTextOps (t : TextElement) : List DrawOp :=
  let x := t.left / 100 * thumbnailWidth
  let y := t.top / 100 * thumbnailHeight
  (if 0 < t.outlineWidth then
    [DrawOp.strokeTextOp t.outlineColor (t.outlineWidth * 2) t.content x y]
  else []) ++ [DrawOp.fillTextOp t.color t.content x y]

/-- The full command sequence of the handleDownload onload callback:
background stretched to the output box, then each layer in order. -/
def handleDownloadOps (bg : EncodedImage) (texts : List TextElement) :
    List DrawOp :=
  DrawOp.drawImage bg 0 0 thumbnailWidth thumbnailHeight ::
    texts.flatMap renderTextOps

def isStrokeOp : DrawOp → Bool
  | DrawOp.strokeTextOp _ _ _ _ _ => true
  | _ => false

/-- getTextShadow of App.tsx: the eight-direction shadow stack of the
interactive preview, or the string none when the outline width is not
positive. -/
def getTextShadow (t : TextElement) : String :=
  if t.outlineWidth ≤ 0 then "none"
  else
    let w := t.outlineWidth
    let c := t.outlineColor
    toString (-w) ++ "px " ++ toString (-w) ++ "px 0 " ++ c ++ ", " ++
    toString w ++ "px " ++ toString (-w) ++ "px 0 " ++ c ++ ", " ++
    toString (-w) ++ "px " ++ toString w ++ "px 0 " ++ c ++ ", " ++
    toString w ++ "px " ++ toString w ++ "px 0 " ++ c ++ ", " ++
    toString (-w) ++ "px 0 0 " ++ c ++ ", " ++
    toString w ++ "px 0 0 " ++ c ++ ", " ++
    "0 " ++ toString (-w) ++ "px 0 " ++ c ++ ", " ++
    "0 " ++ toString w ++ "px 0 " ++ c

/-- C7: for a positive outline width the export draws a stroke pass with
the outline color at line width two times the outline width and then the
fill pass; when the outline width is not positive no stroke command is
issued at all and the preview shadow stack is the string none. -/
theorem outline_render_rule (t : TextElement) :
    (0 < t.outlineWidth →
      renderTextOps t =
        [DrawOp.strokeTextOp t.outlineColor (2 * t.outlineWidth) t.content
           (t.left / 100 * thumbnailWidth) (t.top / 100 * thumbnailHeight),
         DrawOp.fillTextOp t.color t.content
           (t.left / 100 * thumbnailWidth) (t.top / 100 * thumbnailHeight)]) ∧
    (t.outlineWidth ≤ 0 →
      (∀ op ∈ renderTextOps t, isStrokeOp op = false) ∧
      getTextShadow t = "none") := by
  constructor
  · intro hpos
    simp [renderTextOps, hpos, mul_comm]
  · intro hle
    have hneg : ¬0 < t.outlineWidth := not_lt.2 hle
    refine ⟨?_, by simp [getTextShadow, hle]⟩
    intro op hop
    simp only [renderTextOps, hneg, if_false, List.nil_append,
      List.mem_singleton] at hop
    simp [hop, isStrokeOp]

/-- A layer with the outline switched off. -/
def noOutlineText : TextElement := { defaultText "n" with outlineWidth := 0 }

theorem outline_render_rule_witness :
    renderTextOps (defaultText "d") =
      [DrawOp.strokeTextOp (defaultText "d").outlineColor
         (2 * (defaultText "d").outlineWidth) (defaultText "d").content
         ((defaultText "d").left / 100 * thumbnailWidth)
         ((defaultText "d").top / 100 * thumbnailHeight),
       DrawOp.fillTextOp (defaultText "d").color (defaultText "d").content
         ((defaultText "d").left / 100 * thumbnailWidth)
         ((defaultText "d").top / 100 * thumbnailHeight)] ∧
    (∀ op ∈ renderTextOps noOutlineText, isStrokeOp op = false) ∧
    getTextShadow noOutlineText = "none" :=
  ⟨(outline_render_rule (defaultText "d")).1 (by norm_num [defaultText]),
   (outline_render_rule noOutlineText).2 (by norm_num [noOutlineText, defaultText])⟩

/-- One text element of a remote design specification: the TextLayer
fields minus the id (TextSpec in geminiService). -/
structure TextSpec where
  content : String
  color : String
  fontSize : ℚ
  fontFamily : String
  top : ℚ
  left : ℚ
  outlineColor : String
  outlineWidth : ℚ
  deriving DecidableEq

/-- The structured layout plan returned by getThumbnailDesign. -/
structure DesignSpecification where
  backgroundPrompt : String
  textElements : List TextSpec
  deriving DecidableEq

/-- The layers built from a design specification in handleDesignThumbnail:
ids are text, the Date.now() value, and the element index. -/
def specLayers (design : DesignSpecification) (now : ℕ) : List TextElement :=
  design.textElements.mapIdx (fun i spec =>
    { id := "text-" ++ toString now ++ "-" ++ toString i
      content := spec.content
      color := spec.color
      fontSize := spec.fontSize
      fontFamily := spec.fontFamily
      top := spec.top
      left := spec.left
      outlineColor := spec.outlineColor
      outlineWidth := spec.outlineWidth })

/-- Failure exit of the designer and upload flows: the caught message is
surfaced and the finally block resets the busy state. -/
def flowFail (s : AppState) (msg : String) : AppState :=
  { s with error := some msg
           isLoading := false
           loadingMessage := "Generating..." }

/-- Success exit of handleDesignThumbnail: background replaced, layers
repopulated from the specification, mode forced to text. -/
def designFinish (s : AppState) (finalImage : EncodedImage)
    (design : DesignSpecification) (now : ℕ) : AppState :=
  { s with baseImage := some finalImage
           textElements := specLayers design now
           editorMode := EditorMode.text
           isLoading := false
           loadingMessage := "Generating..." }

/-- Outcome environment for the optional subject branch of
handleDesignThumbnail: the file read, the remote background removal, the
two image load events of the compositing join (which has no error
handler, so a failed load leaves the join pending), the context
availability, and the decoded subject dimensions. -/
structure SubjectFlow where
  fileRead : Except String String
  removeBg : String → Except String EncodedImage
  bgLoad : Bool
  subjLoad : Bool
  ctxOk : Bool
  width : ℚ
  height : ℚ

/-- handleDesignThumbnail of App.tsx with the remote steps as outcome
parameters: design specification, background generation, then the
optional subject compositing branch, then document population. -/
def handleDesignThumbnail (designResult : Except String DesignSpecification)
    (genResult : String → Except String EncodedImage)
    (subject : Option SubjectFlow) (now : ℕ) (s : AppState) : AppState :=
  let s0 := { s with isDesignerOpen := false
                     isLoading := true
                     error := none
                     loadingMessage := "Designing layout..." }
  match designResult with
  | Except.error msg => flowFail s0 msg
  | Except.ok design =>
    let s1 := { s0 with loadingMessage := "Creating background..." }
    match genResult design.backgroundPrompt with
    | Except.error msg => flowFail s1 msg
    | Except.ok generatedBackground =>
      match subject with
      | none => designFinish s1 generatedBackground design now
      | some sub =>
        let s2 := { s1 with
          loadingMessage := "Removing background from subject..." }
        match sub.fileRead with
        | Except.error msg => flowFail s2 msg
        | Except.ok subjectDataUrl =>
          match sub.removeBg subjectDataUrl with
          | Except.error msg => flowFail s2 msg
          | Except.ok subjectWithAlpha =>
            let s3 := { s2 with loadingMessage := "Compositing image..." }
            if ¬(sub.bgLoad ∧ sub.subjLoad) then
              s3
            else if ¬sub.ctxOk then
              flowFail s3 "Could not get canvas context"
            else
              designFinish s3
                (compositeSubject generatedBackground subjectWithAlpha
                  sub.width sub.height)
                design now

/-- handleCreateFromUpload of App.tsx: the remote whole-image transform as
an outcome parameter; on success the background is replaced, the layer
list cleared and the mode forced to text. -/
def handleCreateFromUpload
    (createResult : String → String → Except String EncodedImage)
    (base : String) (prompt : String) (s : AppState) : AppState :=
  let s0 := { s with isUploadModalOpen := false
                     isLoading := true
                     loadingMessage := "Transforming your image..."
                     error := none }
  match createResult base prompt with
  | Except.error msg => flowFail s0 msg
  | Except.ok newImage =>
    { s0 with baseImage := some newImage
              textElements := []
              editorMode := EditorMode.text
              isLoading := false
              loadingMessage := "Generating..." }

end ThumbSafi
